import Mathlib

/-!
# Asset provisioning of `libcore/assets.go`

A shallow embedding of `extractV2RayAssets`, `extractAssetName`, `extractAsset` and the
file resolver installed by `setupV2rayFileSystem`, followed by theorems about the
extraction policy, the version marker and the resolver.

Conventions of the embedding.

* The filesystem is a map from path strings to entries.  An entry is a regular file that
  can be read, a file that `os.Stat` sees but that cannot be opened for reading, or a
  directory (which `os.Open` opens although nothing can be read from it).  Path strings
  are keys: two different strings are two different entries.
* The asset bundle maps entry names to streams; a stream delivers some bytes and then
  either ends or fails.
* Failures of `os.Create`, of writing and of the decompressor are given by the environment,
  so every theorem quantified over the environment holds for every failure pattern.
* Every call to a collaborator is appended to a trace, which makes "reads the bundle",
  "probes the disk" and "reaches the copy step" observable.
-/

namespace Libcore

/-! ## Constants (`assets.go` lines 17-24) -/

def geoipDat : String := "geoip.dat"
def geositeDat : String := "geosite.dat"
def browserForwarder : String := "index.js"
def geoipVersion : String := "geoip.version.txt"
def geositeVersion : String := "geosite.version.txt"
def coreVersion : String := "core.version.txt"

/-! ## Errors, streams, filesystem entries -/

/-- Go `error` values met in this file. -/
inductive Err where
  /-- a path error of the `os` package: operation and path -/
  | path (op : String) (p : String)
  /-- an error injected by the environment (bundle, disk, codec) -/
  | ext (tag : String)
  /-- the value of `newError(msg).Base(cause)` -/
  | base (msg : String) (cause : Err)
  deriving DecidableEq, Repr

/-- A readable stream: the bytes it delivers, and the error that ends it (if any). -/
structure Stream where
  data : String
  err : Option Err
  deriving DecidableEq, Repr

/-- An entry of the filesystem. -/
inductive Node where
  /-- a regular file that can be read -/
  | file (data : String)
  /-- a file that `os.Stat` reports but that cannot be opened for reading -/
  | locked
  /-- a directory: `os.Stat` and `os.Open` succeed, reading from it fails -/
  | dir
  deriving DecidableEq, Repr

/-- Result of the decompressor on the bytes of a file. -/
inductive UnxzOutcome where
  /-- decompression succeeded with these bytes -/
  | done (out : String)
  /-- decompression failed; `residue` is what is left at the path (`none`: nothing) -/
  | failed (e : Err) (residue : Option String)
  deriving DecidableEq, Repr

/-- Calls made to collaborators, in order. -/
inductive Op where
  | stat (p : String)
  | readFile (p : String)
  | removeAll (p : String)
  | assetOpen (p : String)
  | readAll (p : String)
  | extractAsset (assetPath : String) (p : String)
  | create (p : String)
  | copy (p : String)
  | unxz (p : String)
  | writeString (p : String) (s : String)
  | osOpen (p : String)
  | warnf (name : String) (e : Err)
  deriving DecidableEq, Repr

/-- The filesystem: path string to entry. -/
abbrev FS := String → Option Node

/-- Package variables, the bundle and the failure behaviour of the collaborators. -/
structure Env where
  assetsPrefix : String
  internalAssetsPath : String
  externalAssetsPath : String
  /-- the value of `device.IsNekoray` -/
  isNekoray : Bool
  /-- the value of `asset.Open(name)` -/
  bundle : String → Except Err Stream
  /-- the error of `os.Create(path)`, if it fails -/
  createErr : String → Option Err
  /-- a failing write of `data` to `path`: the bytes that got through and the error -/
  writeErr : String → String → Option (Nat × Err)
  /-- the decompressor on the bytes of a file -/
  unxzCodec : String → UnxzOutcome

/-- Filesystem together with the trace of calls made so far (oldest first). -/
structure World where
  fs : FS
  trace : List Op

def World.log (w : World) (o : Op) : World :=
  { w with trace := w.trace ++ [o] }

def World.put (w : World) (p : String) (n : Option Node) : World :=
  { w with fs := fun q => if q = p then n else w.fs q }

/-- The first `n` characters of `s`. -/
def takeStr (n : Nat) (s : String) : String := String.mk (s.data.take n)

/-! ## Collaborators -/

/-- The call `os.Stat(p)`: only the error is used by the callers. -/
def osStat (p : String) (w : World) : Option Err × World :=
  (match w.fs p with
   | none => some (Err.path "stat" p)
   | some _ => none,
   w.log (Op.stat p))

/-- The call `ioutil.ReadFile(p)`. -/
def readFile (p : String) (w : World) : Except Err String × World :=
  (match w.fs p with
   | some (Node.file d) => Except.ok d
   | some Node.locked => Except.error (Err.path "open" p)
   | some Node.dir => Except.error (Err.path "read" p)
   | none => Except.error (Err.path "open" p),
   w.log (Op.readFile p))

/-- The call `os.RemoveAll(p)`; the empty path is ignored, as in Go. -/
def removeAll (p : String) (w : World) : World :=
  if p = "" then w.log (Op.removeAll p) else (w.log (Op.removeAll p)).put p none

/-- The call `os.Create(p)`: on success the file exists and is empty. -/
def osCreate (env : Env) (p : String) (w : World) : Option Err × World :=
  match env.createErr p with
  | some e => (some e, w.log (Op.create p))
  | none => (none, (w.log (Op.create p)).put p (some (Node.file "")))

/-- Writing `s` to the freshly created file at `p`. -/
def writeTo (env : Env) (p : String) (s : String) (w : World) : Option Err × World :=
  match env.writeErr p s with
  | some (n, e) => (some e, w.put p (some (Node.file (takeStr n s))))
  | none => (none, w.put p (some (Node.file s)))

/-- The call `io.WriteString(o, s)` on the file created at `p`. -/
def ioWriteString (env : Env) (p : String) (s : String) (w : World) : Option Err × World :=
  writeTo env p s (w.log (Op.writeString p s))

/-- The call `io.Copy(o, i)`: the bytes the stream delivers are written to `p`; a write
failure wins, otherwise the error of the stream (if any) is returned. -/
def ioCopy (env : Env) (p : String) (i : Stream) (w : World) : Option Err × World :=
  match writeTo env p i.data (w.log (Op.copy p)) with
  | (some e, w1) => (some e, w1)
  | (none, w1) => (i.err, w1)

/-- The call `os.Open(p)`.  A directory is opened without error; the handle delivers no
byte and the first read fails. -/
def osOpen (p : String) (w : World) : Except Err Stream × World :=
  (match w.fs p with
   | some (Node.file d) => Except.ok ⟨d, none⟩
   | some Node.locked => Except.error (Err.path "open" p)
   | some Node.dir => Except.ok ⟨"", some (Err.path "read" p)⟩
   | none => Except.error (Err.path "open" p),
   w.log (Op.osOpen p))

/-- Modelled from the spec: `unxz` is not part of the source file.  The spec describes it as
`decompress(pathInPlace) -> error`, which consumes the compressed file at a path and
produces the decompressed file at the same path, failure being propagated verbatim.  It
touches no other path. -/
def unxz (env : Env) (p : String) (w : World) : Option Err × World :=
  match w.fs p with
  | some (Node.file d) =>
    match env.unxzCodec d with
    | UnxzOutcome.done out => (none, (w.log (Op.unxz p)).put p (some (Node.file out)))
    | UnxzOutcome.failed e residue => (some e, (w.log (Op.unxz p)).put p (residue.map Node.file))
  | _ => (some (Err.path "unxz" p), w.log (Op.unxz p))

/-! ## `strconv.ParseUint(s, 10, 64)` -/

def maxUint64 : Nat := 2 ^ 64 - 1

/-- `cutoff`: the smallest number such that `cutoff * 10 > maxUint64`. -/
def cutoff10 : Nat := maxUint64 / 10 + 1

/-- The digit loop of `ParseUint` for base 10 and 64 bits; `none` is a returned error. -/
def parseUintLoop : List Char → Nat → Option Nat
  | [], n => some n
  | c :: cs, n =>
    if 48 ≤ c.toNat ∧ c.toNat ≤ 57 then
      if n ≥ cutoff10 then none
      else
        let m := (n * 10) % 2 ^ 64
        let n1 := (m + (c.toNat - 48)) % 2 ^ 64
        if n1 < m ∨ n1 > maxUint64 then none else parseUintLoop cs n1
    else none

/-- The value of `strconv.ParseUint(s, 10, 64)`; `none` when it returns an error. -/
def parseUint (s : String) : Option Nat :=
  if s = "" then none else parseUintLoop s.data 0

/-! ## `extractAssetName` (lines 54-154) -/

/-- The `switch name` of lines 60-68: the version file name. -/
def versionOf (name : String) : String :=
  if name = geoipDat then geoipVersion
  else if name = geositeDat then geositeVersion
  else if name = browserForwarder then coreVersion
  else ""

/-- The `switch name` of lines 57-68: the flag `replaceable`. -/
def replaceableOf (name : String) : Bool :=
  if name = geoipDat then true
  else if name = geositeDat then true
  else if name = browserForwarder then false
  else true

/-- Lines 70-75: the target directory. -/
def dirOf (env : Env) (name : String) : String :=
  if !replaceableOf name then env.internalAssetsPath else env.externalAssetsPath

/-- The closure `loadAssetVersion` (lines 80-92); the string is the new `assetVersion`. -/
def loadAssetVersion (env : Env) (version : String) (w : World) : Except Err String × World :=
  match env.bundle (env.assetsPrefix ++ version) with
  | Except.error e =>
    (Except.error (Err.base "open version in assets" e),
      w.log (Op.assetOpen (env.assetsPrefix ++ version)))
  | Except.ok av =>
    match av.err with
    | some e =>
      (Except.error (Err.base "read internal version" e),
        (w.log (Op.assetOpen (env.assetsPrefix ++ version))).log
          (Op.readAll (env.assetsPrefix ++ version)))
    | none =>
      (Except.ok av.data,
        (w.log (Op.assetOpen (env.assetsPrefix ++ version))).log
          (Op.readAll (env.assetsPrefix ++ version)))

/-- How the version check ends: the function returns, or goes on to the copy step with
the bundle version it loaded. -/
inductive Check where
  | ret (e : Option Err)
  | proceed (assetVersion : String)
  deriving DecidableEq, Repr

/-- Lines 114-120: the value given to `doExtract` once both markers are read. -/
def compareVersions (assetVersion localVersion : String) (force : Bool) : Bool :=
  match parseUint assetVersion with
  | none => decide (assetVersion ≠ localVersion) || force
  | some av =>
    match parseUint localVersion with
    | none => true
    | some lv => decide (av > lv) || force

/-- Lines 94-125: the value of `doExtract` and of `assetVersion`, or the early return of
line 112. -/
def decideExtract (env : Env) (name : String) (force : Bool) (useOfficialAssets : Bool)
    (w : World) : Except Err (Bool × String) × World :=
  let version := versionOf name
  let replaceable := replaceableOf name
  let dir := dirOf env name
  match osStat (dir ++ version) w with
  | (some _, w1) =>
    match osStat (dir ++ name) w1 with
    | (assetNotFoundError, w2) => (Except.ok (assetNotFoundError.isSome || force, ""), w2)
  | (none, w1) =>
    if useOfficialAssets || !replaceable then
      match readFile (dir ++ version) w1 with
      | (Except.error _, w2) => (Except.ok (true, ""), removeAll version w2)
      | (Except.ok localVersion, w2) =>
        match loadAssetVersion env version w2 with
        | (Except.error e, w3) => (Except.error e, w3)
        | (Except.ok assetVersion, w3) =>
          (Except.ok (compareVersions assetVersion localVersion force, assetVersion), w3)
    else (Except.ok (force, ""), w1)

/-- Lines 94-136: everything before the copy step. -/
def versionCheck (env : Env) (name : String) (force : Bool) (useOfficialAssets : Bool)
    (w : World) : Check × World :=
  match decideExtract env name force useOfficialAssets w with
  | (Except.error e, w1) => (Check.ret (some e), w1)
  | (Except.ok (doExtract, assetVersion), w1) =>
    if doExtract then
      if assetVersion = "" then
        match loadAssetVersion env (versionOf name) w1 with
        | (Except.error e, w2) => (Check.ret (some e), w2)
        | (Except.ok av, w2) => (Check.proceed av, w2)
      else (Check.proceed assetVersion, w1)
    else (Check.ret none, w1)

/-- The function `extractAsset` (lines 156-172). -/
def extractAsset (env : Env) (assetPath : String) (p : String) (w : World) :
    Option Err × World :=
  let w0 := (w.log (Op.extractAsset assetPath p)).log (Op.assetOpen assetPath)
  match env.bundle assetPath with
  | Except.error e => (some e, w0)
  | Except.ok i =>
    match osCreate env p w0 with
    | (some e, w1) => (some e, w1)
    | (none, w1) => ioCopy env p i w1

/-- Lines 147-153: stamping the marker. -/
def writeMarker (env : Env) (p : String) (assetVersion : String) (w : World) :
    Option Err × World :=
  match osCreate env p w with
  | (some e, w1) => (some e, w1)
  | (none, w1) => ioWriteString env p assetVersion w1

/-- Lines 138-145: copy, then decompress when the copy went through. -/
def copyAndUnxz (env : Env) (name : String) (w : World) : Option Err × World :=
  match extractAsset env (env.assetsPrefix ++ name ++ ".xz") (dirOf env name ++ name) w with
  | (some e, w1) => (some e, w1)
  | (none, w1) => unxz env (dirOf env name ++ name) w1

/-- Lines 138-153: the copy step and the marker. -/
def copyAndStamp (env : Env) (name : String) (assetVersion : String) (w : World) :
    Option Err × World :=
  match copyAndUnxz env name w with
  | (some e, w1) => (some e, w1)
  | (none, w1) => writeMarker env (dirOf env name ++ versionOf name) assetVersion w1

/-- The function `extractAssetName` (lines 54-154): returned error and resulting world. -/
def extractAssetName (env : Env) (name : String) (force : Bool) (useOfficialAssets : Bool)
    (w : World) : Option Err × World :=
  match versionCheck env name force useOfficialAssets w with
  | (Check.ret e, w1) => (e, w1)
  | (Check.proceed assetVersion, w1) => copyAndStamp env name assetVersion w1

/-- The closure `extract` of `extractV2RayAssets` (lines 41-46); the warning names
`geoipDat`, as the source does. -/
def extractLogged (env : Env) (useOfficialAssets : Bool) (name : String) (w : World) : World :=
  match extractAssetName env name false useOfficialAssets w with
  | (some e, w1) => w1.log (Op.warnf geoipDat e)
  | (none, w1) => w1

/-- The function `extractV2RayAssets` (lines 34-51); `useOfficial` is the value of
`useOfficial.Invoke()`. -/
def extractV2RayAssets (env : Env) (useOfficial : Bool) (w : World) : World :=
  if env.isNekoray then w
  else
    extractLogged env useOfficial browserForwarder
      (extractLogged env useOfficial geositeDat
        (extractLogged env useOfficial geoipDat w))

/-! ## The resolver of `setupV2rayFileSystem` (lines 174-211) -/

/-- The file part of `filepath.Split(path)`: what follows the last slash. -/
def splitFile (p : String) : String :=
  String.mk ((p.data.reverse.takeWhile (fun c => c != '/')).reverse)

/-- The statement `return os.Open(path)` of line 201. -/
def returnOpen (p : String) (w : World) : Except (Option Err) Stream × World :=
  match osOpen p w with
  | (Except.ok f, w1) => (Except.ok f, w1)
  | (Except.error e, w1) => (Except.error (some e), w1)

/-- The loop of lines 198-203 over the candidate paths; `err` is the last stat error. -/
def probe : List String → Option Err → World → Except (Option Err) Stream × World
  | [], err, w => (Except.error err, w)
  | p :: ps, _, w =>
    match osStat p w with
    | (none, w1) => returnOpen p w1
    | (some e, w1) => probe ps (some e) w1

/-- The closure assigned to `filesystem.NewFileSeeker` (lines 179-206).  The error side
is the returned `error`, which Go leaves `nil` only when the path list is empty. -/
def newFileSeeker (env : Env) (internalAssets externalAssets : String) (p : String)
    (w : World) : Except (Option Err) Stream × World :=
  let fileName := splitFile p
  if fileName = "index.html" then
    match env.bundle (env.assetsPrefix ++ fileName) with
    | Except.error e =>
      (Except.error (some (Err.base ("open " ++ fileName ++ " in assets") e)),
        w.log (Op.assetOpen (env.assetsPrefix ++ fileName)))
    | Except.ok av => (Except.ok av, w.log (Op.assetOpen (env.assetsPrefix ++ fileName)))
  else
    probe [internalAssets ++ fileName, externalAssets ++ fileName] none w

/-- The function `setupV2rayFileSystem`: the resolver it installs, if any. -/
def setupV2rayFileSystem (env : Env) (internalAssets externalAssets : String) :
    Option (String → World → Except (Option Err) Stream × World) :=
  if env.isNekoray then none else some (newFileSeeker env internalAssets externalAssets)

/-! ## Observations -/

/-- The call reached the copy step (line 138) for `name`. -/
def decidesToExtract (env : Env) (name : String) (force : Bool) (useOfficialAssets : Bool)
    (fs : FS) : Bool :=
  decide (Op.extractAsset (env.assetsPrefix ++ name ++ ".xz") (dirOf env name ++ name) ∈
    (extractAssetName env name force useOfficialAssets ⟨fs, []⟩).2.trace)

/-- What `loadAssetVersion` makes of the bundle entry of the version file. -/
def readVersion (b : Except Err Stream) : Except Err String :=
  match b with
  | Except.error e => Except.error (Err.base "open version in assets" e)
  | Except.ok av =>
    match av.err with
    | some e => Except.error (Err.base "read internal version" e)
    | none => Except.ok av.data

/-- Lines 127-136 once `doExtract` is true: load the bundle version, then go on. -/
def loadCheck (b : Except Err Stream) : Check :=
  match readVersion b with
  | Except.error e => Check.ret (some e)
  | Except.ok v => Check.proceed v

/-- The outcome of the version check as a function of the three things it reads: the
entry of the marker, the entry of the resource file and the bundle entry of the version
file.  `versionCheck_fst` shows that the code computes exactly this. -/
def policy (marker asset : Option Node) (b : Except Err Stream)
    (replaceable official force : Bool) : Check :=
  match marker with
  | none => if asset.isNone || force then loadCheck b else Check.ret none
  | some n =>
    if official || !replaceable then
      match n with
      | Node.locked => loadCheck b
      | Node.dir => loadCheck b
      | Node.file localVersion =>
        match readVersion b with
        | Except.error e => Check.ret (some e)
        | Except.ok assetVersion =>
          if compareVersions assetVersion localVersion force then Check.proceed assetVersion
          else Check.ret none
    else if force then loadCheck b else Check.ret none

/-- Calls that the version check may make. -/
def isCheckOp : Op → Bool
  | Op.stat _ => true
  | Op.readFile _ => true
  | Op.removeAll _ => true
  | Op.assetOpen _ => true
  | Op.readAll _ => true
  | _ => false

/-- The warnings of `extractV2RayAssets`. -/
def isWarnf : Op → Bool
  | Op.warnf _ _ => true
  | _ => false

/-- The number written by a list of decimal digits, most significant first, continuing
from the value `n` read so far. -/
def decimalValue (cs : List Char) (n : Nat) : Nat :=
  cs.foldl (fun a c => a * 10 + (c.toNat - 48)) n

/-! ## Sample data for the worked instances -/

/-- A bundle holding the three resources, their version files and `index.html`. -/
def sampleBundle (p : String) : Except Err Stream :=
  if p = "assets/geoip.version.txt" then Except.ok ⟨"5", none⟩
  else if p = "assets/geosite.version.txt" then Except.ok ⟨"7", none⟩
  else if p = "assets/core.version.txt" then Except.ok ⟨"2", none⟩
  else if p = "assets/geoip.dat.xz" then Except.ok ⟨"xz-geoip", none⟩
  else if p = "assets/geosite.dat.xz" then Except.ok ⟨"xz-geosite", none⟩
  else if p = "assets/index.js.xz" then Except.ok ⟨"xz-js", none⟩
  else if p = "assets/index.html" then Except.ok ⟨"<html>", none⟩
  else Except.error (Err.ext "asset not found")

/-- An environment in which nothing fails. -/
def sampleEnv : Env where
  assetsPrefix := "assets/"
  internalAssetsPath := "/data/files/"
  externalAssetsPath := "/sdcard/app/"
  isNekoray := false
  bundle := sampleBundle
  createErr := fun _ => none
  writeErr := fun _ _ => none
  unxzCodec := fun d => UnxzOutcome.done ("raw-" ++ d)

/-- The disk of a fresh install. -/
def emptyFS : FS := fun _ => none

/-- A disk on which only the marker of `geoip.dat` exists, with version `3`. -/
def markerFS : FS := fun p =>
  if p = "/sdcard/app/geoip.version.txt" then some (Node.file "3") else none

/-- A disk with `geoip.dat` in both directories. -/
def bothFS : FS := fun p =>
  if p = "/data/files/geoip.dat" then some (Node.file "internal copy")
  else if p = "/sdcard/app/geoip.dat" then some (Node.file "external copy")
  else none

/-- A disk on which the marker of `index.js` exists but cannot be read. -/
def lockedFS : FS := fun p =>
  if p = "/data/files/core.version.txt" then some Node.locked
  else if p = "/data/files/index.js" then some (Node.file "old script")
  else none

/-- The three resource names. -/
def isResource (name : String) : Prop :=
  name = geoipDat ∨ name = geositeDat ∨ name = browserForwarder

instance (name : String) : Decidable (isResource name) := by
  unfold isResource
  infer_instance

/-- As `sampleEnv`, but the copy to `geoip.dat` fails after three bytes. -/
def copyFailEnv : Env :=
  { sampleEnv with
    writeErr := fun p _ =>
      if p = "/sdcard/app/geoip.dat" then some (3, Err.ext "write failed") else none }

theorem str_append_ne_of_not_suffix (d d' a b : String)
    (h1 : ¬ a.data <:+ b.data) (h2 : ¬ b.data <:+ a.data) : d ++ a ≠ d' ++ b := by
  intro h
  have hd : (d ++ a).data = (d' ++ b).data := by rw [h]
  simp only [String.data_append] at hd
  have s1 : a.data <:+ d'.data ++ b.data := ⟨d.data, hd⟩
  have s2 : b.data <:+ d'.data ++ b.data := ⟨d'.data, rfl⟩
  rcases List.suffix_or_suffix_of_suffix s1 s2 with h | h
  · exact h1 h
  · exact h2 h

theorem str_ne_append_of_not_suffix (d a b : String)
    (h1 : ¬ a.data <:+ b.data) : b ≠ d ++ a := by
  intro h
  have hd : b.data = (d ++ a).data := by rw [← h]
  simp only [String.data_append] at hd
  exact h1 ⟨d.data, hd.symm⟩

/-! ## The version check, branch by branch -/

theorem loadAssetVersion_fst (env : Env) (v : String) (w : World) :
    (loadAssetVersion env v w).1 = readVersion (env.bundle (env.assetsPrefix ++ v)) := by
  unfold loadAssetVersion readVersion
  cases env.bundle (env.assetsPrefix ++ v) with
  | error e => rfl
  | ok av => cases h : av.err <;> simp [h]

theorem loadAssetVersion_fs (env : Env) (v : String) (w : World) :
    (loadAssetVersion env v w).2.fs = w.fs := by
  unfold loadAssetVersion
  cases env.bundle (env.assetsPrefix ++ v) with
  | error e => rfl
  | ok av => cases h : av.err <;> simp [h, World.log]

theorem loadAssetVersion_trace (env : Env) (v : String) (w : World) :
    ∃ l, (loadAssetVersion env v w).2.trace = w.trace ++ l ∧
      ∀ o ∈ l, o = Op.assetOpen (env.assetsPrefix ++ v) ∨ o = Op.readAll (env.assetsPrefix ++ v) := by
  unfold loadAssetVersion
  cases env.bundle (env.assetsPrefix ++ v) with
  | error e => exact ⟨[Op.assetOpen (env.assetsPrefix ++ v)], rfl, by simp⟩
  | ok av =>
    cases h : av.err <;>
      exact ⟨[Op.assetOpen (env.assetsPrefix ++ v), Op.readAll (env.assetsPrefix ++ v)],
        by simp [h, World.log], by simp⟩

theorem decideExtract_custom (env : Env) (name : String) (force : Bool) (w : World) (n : Node)
    (h : w.fs (dirOf env name ++ versionOf name) = some n)
    (hr : replaceableOf name = true) :
    decideExtract env name force false w =
      (Except.ok (force, ""), w.log (Op.stat (dirOf env name ++ versionOf name))) := by
  simp [decideExtract, osStat, World.log, h, hr]

theorem decideExtract_locked (env : Env) (name : String) (force official : Bool) (w : World)
    (h : w.fs (dirOf env name ++ versionOf name) = some Node.locked)
    (hc : official = true ∨ replaceableOf name = false) :
    decideExtract env name force official w =
      (Except.ok (true, ""),
        removeAll (versionOf name)
          ((w.log (Op.stat (dirOf env name ++ versionOf name))).log
            (Op.readFile (dirOf env name ++ versionOf name)))) := by
  simp [decideExtract, osStat, readFile, World.log, h, hc]

theorem decideExtract_file (env : Env) (name : String) (force official : Bool) (w : World)
    (localVersion : String)
    (h : w.fs (dirOf env name ++ versionOf name) = some (Node.file localVersion))
    (hc : official = true ∨ replaceableOf name = false) :
    decideExtract env name force official w =
      match loadAssetVersion env (versionOf name)
          ((w.log (Op.stat (dirOf env name ++ versionOf name))).log
            (Op.readFile (dirOf env name ++ versionOf name))) with
      | (Except.error e, w3) => (Except.error e, w3)
      | (Except.ok assetVersion, w3) =>
        (Except.ok (compareVersions assetVersion localVersion force, assetVersion), w3) := by
  simp [decideExtract, osStat, readFile, World.log, h, hc]

theorem versionCheck_fst (env : Env) (name : String) (force official : Bool) (w : World) :
    (versionCheck env name force official w).1 =
      policy (w.fs (dirOf env name ++ versionOf name)) (w.fs (dirOf env name ++ name))
        (env.bundle (env.assetsPrefix ++ versionOf name)) (replaceableOf name) official force := by
  rcases hb : env.bundle (env.assetsPrefix ++ versionOf name) with e | ⟨d, _ | e⟩ <;>
  rcases hm : w.fs (dirOf env name ++ versionOf name) with _ | (localVersion | _ | _) <;>
  rcases ha : w.fs (dirOf env name ++ name) with _ | _ <;>
  cases force <;> cases official <;> cases hr : replaceableOf name <;>
  simp [versionCheck, decideExtract, osStat, readFile, loadAssetVersion, policy, loadCheck,
    readVersion, removeAll, World.log, hm, ha, hr, hb] <;>
  split_ifs <;> rfl

/-- The filesystem after the version check: only the locked-marker branch changes it, by
its `os.RemoveAll(version)`. -/
theorem versionCheck_fs (env : Env) (name : String) (force official : Bool) (w : World) :
    (versionCheck env name force official w).2.fs =
      if (w.fs (dirOf env name ++ versionOf name) = some Node.locked ∨
            w.fs (dirOf env name ++ versionOf name) = some Node.dir) ∧
          (official || !replaceableOf name) = true ∧ versionOf name ≠ ""
      then (fun q => if q = versionOf name then none else w.fs q) else w.fs := by
  rcases hb : env.bundle (env.assetsPrefix ++ versionOf name) with e | ⟨d, _ | e⟩ <;>
  rcases hm : w.fs (dirOf env name ++ versionOf name) with _ | (localVersion | _ | _) <;>
  rcases ha : w.fs (dirOf env name ++ name) with _ | _ <;>
  cases force <;> cases official <;> cases hr : replaceableOf name <;>
  simp [versionCheck, decideExtract, osStat, readFile, loadAssetVersion,
    removeAll, World.log, World.put, hm, ha, hr, hb] <;>
  split_ifs <;> simp_all

set_option maxHeartbeats 1000000 in
theorem versionCheck_trace (env : Env) (name : String) (force official : Bool) (w : World) :
    ∃ l, (versionCheck env name force official w).2.trace = w.trace ++ l ∧
      l.all isCheckOp = true := by
  rcases hb : env.bundle (env.assetsPrefix ++ versionOf name) with e | ⟨d, _ | e⟩ <;>
  rcases hm : w.fs (dirOf env name ++ versionOf name) with _ | (localVersion | _ | _) <;>
  rcases ha : w.fs (dirOf env name ++ name) with _ | _ <;>
  cases force <;> cases official <;> cases hr : replaceableOf name <;>
  simp [versionCheck, decideExtract, osStat, readFile, loadAssetVersion,
    removeAll, World.log, World.put, hm, ha, hr, hb] <;>
  (try split_ifs) <;> simp [isCheckOp]

/-! ## The copy step -/

theorem copyAndUnxz_fs (env : Env) (name : String) (w : World) (q : String)
    (hq : q ≠ dirOf env name ++ name) : (copyAndUnxz env name w).2.fs q = w.fs q := by
  rcases hb : env.bundle (env.assetsPrefix ++ name ++ ".xz") with e | ⟨d, se⟩ <;>
  rcases hc : env.createErr (dirOf env name ++ name) with _ | e <;>
  simp [copyAndUnxz, extractAsset, osCreate, ioCopy, writeTo, World.log, World.put, hb, hc]
  rcases hw : env.writeErr (dirOf env name ++ name) d with _ | ⟨n, e⟩
  · rcases se with _ | e
    · rcases hu : env.unxzCodec d with out | ⟨e, r⟩ <;>
        simp [unxz, World.log, World.put, hu, hq]
    · simp [hq]
  · simp [hq]

theorem copyAndUnxz_trace (env : Env) (name : String) (w : World) :
    ∃ l, (copyAndUnxz env name w).2.trace =
        w.trace ++ Op.extractAsset (env.assetsPrefix ++ name ++ ".xz") (dirOf env name ++ name) :: l ∧
      ∀ p, Op.create p ∈ l → p = dirOf env name ++ name := by
  rcases hb : env.bundle (env.assetsPrefix ++ name ++ ".xz") with e | ⟨d, se⟩ <;>
  rcases hc : env.createErr (dirOf env name ++ name) with _ | e <;>
  simp [copyAndUnxz, extractAsset, osCreate, ioCopy, writeTo, World.log, World.put, hb, hc]
  rcases hw : env.writeErr (dirOf env name ++ name) d with _ | ⟨n, e⟩
  · rcases se with _ | e
    · rcases hu : env.unxzCodec d with out | ⟨e, r⟩ <;>
        simp [unxz, World.log, World.put, hu]
    · simp
  · simp

theorem writeMarker_fs (env : Env) (m av : String) (w : World) (q : String) (hq : q ≠ m) :
    (writeMarker env m av w).2.fs q = w.fs q := by
  rcases hc : env.createErr m with _ | e <;>
  rcases hw : env.writeErr m av with _ | ⟨n, e⟩ <;>
  simp [writeMarker, osCreate, ioWriteString, writeTo, World.log, World.put, hc, hw, hq]

theorem writeMarker_trace (env : Env) (m av : String) (w : World) :
    ∃ l, (writeMarker env m av w).2.trace = w.trace ++ l ∧
      ∀ o ∈ l, o = Op.create m ∨ o = Op.writeString m av := by
  rcases hc : env.createErr m with _ | e <;>
  rcases hw : env.writeErr m av with _ | ⟨n, e⟩ <;>
  simp [writeMarker, osCreate, ioWriteString, writeTo, World.log, World.put, hc, hw]

/-- A marker write that returns no error leaves exactly the version string. -/
theorem writeMarker_ok (env : Env) (m av : String) (w : World)
    (h : (writeMarker env m av w).1 = none) :
    (writeMarker env m av w).2.fs m = some (Node.file av) := by
  revert h
  rcases hc : env.createErr m with _ | e <;>
  rcases hw : env.writeErr m av with _ | ⟨n, e⟩ <;>
  simp [writeMarker, osCreate, ioWriteString, writeTo, World.log, World.put, hc, hw]





/-! ## Reaching the copy step -/

theorem copyAndStamp_trace (env : Env) (name av : String) (w : World) :
    ∃ l, (copyAndStamp env name av w).2.trace =
        w.trace ++ Op.extractAsset (env.assetsPrefix ++ name ++ ".xz") (dirOf env name ++ name) :: l ∧
      ∀ p, Op.create p ∈ l → p = dirOf env name ++ name ∨ p = dirOf env name ++ versionOf name := by
  obtain ⟨l1, h1, hl1⟩ := copyAndUnxz_trace env name w
  unfold copyAndStamp
  rcases hcu : copyAndUnxz env name w with ⟨_ | e, w1⟩
  · obtain ⟨l2, h2, hl2⟩ := writeMarker_trace env (dirOf env name ++ versionOf name) av w1
    rw [hcu] at h1
    simp only at h1
    refine ⟨l1 ++ l2, ?_, ?_⟩
    · simp only [h2, h1, List.append_assoc, List.cons_append]
    · intro p hp
      rcases List.mem_append.1 hp with hp | hp
      · exact Or.inl (hl1 p hp)
      · rcases hl2 _ hp with h | h
        · exact Or.inr (by injection h)
        · cases h
  · rw [hcu] at h1
    exact ⟨l1, h1, fun p hp => Or.inl (hl1 p hp)⟩

theorem decidesToExtract_iff (env : Env) (name : String) (force official : Bool) (fs : FS) :
    decidesToExtract env name force official fs = true ↔
      ∃ av, (versionCheck env name force official ⟨fs, []⟩).1 = Check.proceed av := by
  unfold decidesToExtract extractAssetName
  obtain ⟨l, hl, hall⟩ := versionCheck_trace env name force official ⟨fs, []⟩
  rcases hv : versionCheck env name force official ⟨fs, []⟩ with ⟨e | av, w1⟩
  · rw [hv] at hl
    simp only [List.nil_append] at hl
    simp only [decide_eq_true_eq, hl, reduceCtorEq, exists_false, iff_false]
    intro hmem
    have := List.all_eq_true.1 hall _ hmem
    simp [isCheckOp] at this
  · obtain ⟨l2, h2, _⟩ := copyAndStamp_trace env name av w1
    simp [h2]



/-! ## The comparison rule -/

theorem compareVersions_force (a b : String) : compareVersions a b true = true := by
  unfold compareVersions
  cases parseUint a <;> cases parseUint b <;> simp

theorem compareVersions_self (a : String) : compareVersions a a false = false := by
  unfold compareVersions
  cases h : parseUint a <;> simp

theorem compareVersions_iff (A B : String) :
    compareVersions B A false = true ↔
      (∃ a b, parseUint A = some a ∧ parseUint B = some b ∧ b > a) ∨
        ((parseUint A = none ∨ parseUint B = none) ∧ A ≠ B) := by
  unfold compareVersions
  cases hB : parseUint B with
  | none =>
    simp only [Bool.or_false, decide_eq_true_eq, reduceCtorEq, false_and, and_false,
      exists_false, or_true, true_and, false_or]
    exact ⟨fun h => fun h' => h h'.symm, fun h => fun h' => h h'.symm⟩
  | some b =>
    cases hA : parseUint A with
    | none =>
      simp only [reduceCtorEq, false_and, exists_false, or_false, true_and, false_or, true_iff]
      intro h
      rw [h, hB] at hA
      cases hA
    | some a => simp

/-- C1. With a readable on-disk marker `A`, a readable bundle marker `B`, `force = false`
and the official channel (or a non-replaceable resource), `extractAssetName` reaches the copy
step exactly when both markers parse as unsigned 64-bit decimals and `B` is the larger, or
at least one does not parse and the two strings differ. -/
theorem extract_iff_newer_or_differs (env : Env) (name : String) (official : Bool) (fs : FS)
    (A B : String)
    (hch : official = true ∨ replaceableOf name = false)
    (hA : fs (dirOf env name ++ versionOf name) = some (Node.file A))
    (hB : env.bundle (env.assetsPrefix ++ versionOf name) = Except.ok ⟨B, none⟩) :
    decidesToExtract env name false official fs = true ↔
      (∃ a b, parseUint A = some a ∧ parseUint B = some b ∧ b > a) ∨
        ((parseUint A = none ∨ parseUint B = none) ∧ A ≠ B) := by
  rw [decidesToExtract_iff, versionCheck_fst, ← compareVersions_iff]
  have hc : (official || !replaceableOf name) = true := by
    rcases hch with h | h <;> simp [h]
  simp only [policy, hA, hB, hc, readVersion, if_true]
  cases compareVersions B A false <;> simp

/-- C2. A replaceable resource whose marker exists, on the custom channel and without
`force`: the call returns nil after the single `os.Stat` of the marker; the bundle is
not read and the filesystem is left as it was. -/
theorem custom_channel_never_extracts (env : Env) (name : String) (fs : FS) (n : Node)
    (hname : name = geoipDat ∨ name = geositeDat)
    (hm : fs (env.externalAssetsPath ++ versionOf name) = some n) :
    extractAssetName env name false false ⟨fs, []⟩ =
      (none, ⟨fs, [Op.stat (env.externalAssetsPath ++ versionOf name)]⟩) := by
  have hr : replaceableOf name = true := by rcases hname with h | h <;> subst h <;> rfl
  have hd : dirOf env name = env.externalAssetsPath := by simp [dirOf, hr]
  have hm' : (⟨fs, []⟩ : World).fs (dirOf env name ++ versionOf name) = some n := by
    rw [hd]; exact hm
  simp [extractAssetName, versionCheck, decideExtract_custom env name false ⟨fs, []⟩ n hm' hr,
    World.log, hd]

/-- C3. With `force = true` and a readable bundle marker, `extractAssetName` reaches the
copy step for every name, channel setting and on-disk state. -/
theorem force_always_extracts (env : Env) (name : String) (official : Bool) (fs : FS)
    (B : String)
    (hB : env.bundle (env.assetsPrefix ++ versionOf name) = Except.ok ⟨B, none⟩) :
    decidesToExtract env name true official fs = true := by
  rw [decidesToExtract_iff, versionCheck_fst]
  refine ⟨B, ?_⟩
  rcases hm : fs (dirOf env name ++ versionOf name) with _ | (A | _ | _) <;>
    cases official <;> cases hr : replaceableOf name <;>
    simp [policy, loadCheck, readVersion, hB, hm, hr, compareVersions_force]

/-- C4. For `index.js` the call does not depend on the channel preference: error,
filesystem and trace are the same for both values of `useOfficialAssets`; the directory
is the internal one and files are created only there. -/
theorem browserForwarder_ignores_channel (env : Env) (force : Bool) (fs : FS) :
    extractAssetName env browserForwarder force false ⟨fs, []⟩ =
        extractAssetName env browserForwarder force true ⟨fs, []⟩ ∧
      dirOf env browserForwarder = env.internalAssetsPath ∧
      ∀ (official : Bool) (p : String),
        Op.create p ∈ (extractAssetName env browserForwarder force official ⟨fs, []⟩).2.trace →
          p = env.internalAssetsPath ++ browserForwarder ∨
            p = env.internalAssetsPath ++ coreVersion := by
  have hr : replaceableOf browserForwarder = false := rfl
  have hd : dirOf env browserForwarder = env.internalAssetsPath := rfl
  have hv : versionOf browserForwarder = coreVersion := rfl
  refine ⟨?_, hd, ?_⟩
  · simp [extractAssetName, versionCheck, decideExtract, hr]
  · intro official p hp
    unfold extractAssetName at hp
    obtain ⟨l, hl, hall⟩ := versionCheck_trace env browserForwarder force official ⟨fs, []⟩
    rcases hvc : versionCheck env browserForwarder force official ⟨fs, []⟩ with ⟨e | av, w1⟩
    · rw [hvc] at hp hl
      simp only [List.nil_append] at hl
      simp only [hl] at hp
      have := List.all_eq_true.1 hall _ hp
      simp [isCheckOp] at this
    · rw [hvc] at hp hl
      obtain ⟨l2, h2, hc2⟩ := copyAndStamp_trace env browserForwarder av w1
      simp only [List.nil_append] at hl
      simp only [h2, hl, List.mem_append, List.mem_cons, reduceCtorEq, false_or] at hp
      rcases hp with hp | hp
      · have := List.all_eq_true.1 hall _ hp
        simp [isCheckOp] at this
      · have := hc2 p hp
        rw [hd, hv] at this
        exact this



theorem extract_iff_newer_or_differs_witness :
    (true = true ∨ replaceableOf geoipDat = false) ∧
      markerFS (dirOf sampleEnv geoipDat ++ versionOf geoipDat) = some (Node.file "3") ∧
      sampleEnv.bundle (sampleEnv.assetsPrefix ++ versionOf geoipDat) = Except.ok ⟨"5", none⟩ ∧
      (decidesToExtract sampleEnv geoipDat false true markerFS = true ↔
        (∃ a b, parseUint "3" = some a ∧ parseUint "5" = some b ∧ b > a) ∨
          ((parseUint "3" = none ∨ parseUint "5" = none) ∧ "3" ≠ "5")) :=
  ⟨Or.inl rfl, by decide, rfl,
    extract_iff_newer_or_differs sampleEnv geoipDat true markerFS "3" "5" (Or.inl rfl)
      (by decide) rfl⟩

theorem custom_channel_never_extracts_witness :
    (geoipDat = geoipDat ∨ geoipDat = geositeDat) ∧
      markerFS (sampleEnv.externalAssetsPath ++ versionOf geoipDat) = some (Node.file "3") ∧
      extractAssetName sampleEnv geoipDat false false ⟨markerFS, []⟩ =
        (none, ⟨markerFS, [Op.stat (sampleEnv.externalAssetsPath ++ versionOf geoipDat)]⟩) :=
  ⟨Or.inl rfl, by decide,
    custom_channel_never_extracts sampleEnv geoipDat markerFS (Node.file "3") (Or.inl rfl)
      (by decide)⟩

theorem force_always_extracts_witness :
    sampleEnv.bundle (sampleEnv.assetsPrefix ++ versionOf geoipDat) = Except.ok ⟨"5", none⟩ ∧
      decidesToExtract sampleEnv geoipDat true false markerFS = true :=
  ⟨rfl, force_always_extracts sampleEnv geoipDat false markerFS "5" rfl⟩

/-! ## The resolver -/

/-- C6. For a path whose file name `f` is not the reserved one, the installed resolver
returns `os.Open(internalAssets+f)` when that entry exists, whatever is at
`externalAssets+f`; returns `os.Open(externalAssets+f)` when only that one exists; and
when neither exists returns no stream and the error of the stat of `externalAssets+f`. -/
theorem resolver_priority (env : Env) (internalAssets externalAssets : String)
    (r : String → World → Except (Option Err) Stream × World)
    (hr : setupV2rayFileSystem env internalAssets externalAssets = some r)
    (p : String) (w : World) (hf : splitFile p ≠ "index.html") :
    (∀ n, w.fs (internalAssets ++ splitFile p) = some n →
        r p w = returnOpen (internalAssets ++ splitFile p)
          (osStat (internalAssets ++ splitFile p) w).2) ∧
      (∀ n, w.fs (internalAssets ++ splitFile p) = none →
        w.fs (externalAssets ++ splitFile p) = some n →
        r p w = returnOpen (externalAssets ++ splitFile p)
          (osStat (externalAssets ++ splitFile p)
            (osStat (internalAssets ++ splitFile p) w).2).2) ∧
      (w.fs (internalAssets ++ splitFile p) = none →
        w.fs (externalAssets ++ splitFile p) = none →
        (r p w).1 = Except.error
          (osStat (externalAssets ++ splitFile p)
            (osStat (internalAssets ++ splitFile p) w).2).1 ∧
        (r p w).1 = Except.error (some (Err.path "stat" (externalAssets ++ splitFile p))) ∧
        (r p w).2.fs = w.fs) := by
  unfold setupV2rayFileSystem at hr
  cases hn : env.isNekoray <;> simp [hn] at hr
  subst hr
  refine ⟨?_, ?_, ?_⟩
  · intro n h
    simp [newFileSeeker, hf, probe, osStat, h]
  · intro n h1 h2
    simp [newFileSeeker, hf, probe, osStat, h1, h2, World.log]
  · intro h1 h2
    simp [newFileSeeker, hf, probe, osStat, h1, h2, World.log]

theorem resolver_priority_witness :
    setupV2rayFileSystem sampleEnv "/data/files/" "/sdcard/app/" =
        some (newFileSeeker sampleEnv "/data/files/" "/sdcard/app/") ∧
      splitFile "/any/dir/geoip.dat" ≠ "index.html" ∧
      (newFileSeeker sampleEnv "/data/files/" "/sdcard/app/" "/any/dir/geoip.dat"
        ⟨bothFS, []⟩).1 = Except.ok ⟨"internal copy", none⟩ := by
  refine ⟨rfl, by decide, ?_⟩
  have h := (resolver_priority sampleEnv "/data/files/" "/sdcard/app/" _ rfl
    "/any/dir/geoip.dat" ⟨bothFS, []⟩ (by decide)).1 (Node.file "internal copy") (by decide)
  rw [h]
  rfl

/-- C7. For a path whose file name is `index.html` the installed resolver opens
`assetsPrefix + "index.html"` from the bundle and makes no other call: its result is the
same on every disk, the disk is not probed and not changed. -/
theorem reserved_name_from_bundle (env : Env) (internalAssets externalAssets : String)
    (r : String → World → Except (Option Err) Stream × World)
    (hr : setupV2rayFileSystem env internalAssets externalAssets = some r)
    (p : String) (hf : splitFile p = "index.html") (w : World) :
    (r p w).1 =
        (match env.bundle (env.assetsPrefix ++ "index.html") with
         | Except.ok av => Except.ok av
         | Except.error e => Except.error (some (Err.base "open index.html in assets" e))) ∧
      (r p w).2 = w.log (Op.assetOpen (env.assetsPrefix ++ "index.html")) ∧
      ∀ w' : World, (r p w').1 = (r p w).1 := by
  unfold setupV2rayFileSystem at hr
  cases hn : env.isNekoray <;> simp [hn] at hr
  subst hr
  have key : ∀ v : World,
      newFileSeeker env internalAssets externalAssets p v =
        ((match env.bundle (env.assetsPrefix ++ "index.html") with
         | Except.ok av => Except.ok av
         | Except.error e => Except.error (some (Err.base "open index.html in assets" e))),
         v.log (Op.assetOpen (env.assetsPrefix ++ "index.html"))) := by
    intro v
    simp only [newFileSeeker, hf, if_true]
    cases env.bundle (env.assetsPrefix ++ "index.html") <;> rfl
  refine ⟨by rw [key], by rw [key], fun w' => by rw [key, key]⟩

theorem reserved_name_from_bundle_witness :
    setupV2rayFileSystem sampleEnv "/data/files/" "/sdcard/app/" =
        some (newFileSeeker sampleEnv "/data/files/" "/sdcard/app/") ∧
      splitFile "/www/index.html" = "index.html" ∧
      (newFileSeeker sampleEnv "/data/files/" "/sdcard/app/" "/www/index.html"
        ⟨bothFS, []⟩).2 = (⟨bothFS, []⟩ : World).log (Op.assetOpen "assets/index.html") :=
  ⟨rfl, by decide,
    (reserved_name_from_bundle sampleEnv "/data/files/" "/sdcard/app/" _ rfl
      "/www/index.html" (by decide) ⟨bothFS, []⟩).2.1⟩



/-! ## Paths of a resource -/

theorem policy_proceed (m a : Option Node) (b : Except Err Stream) (r o f : Bool) (av : String)
    (h : policy m a b r o f = Check.proceed av) : readVersion b = Except.ok av := by
  revert h
  unfold policy loadCheck
  rcases m with _ | (A | _ | _) <;> rcases hb : readVersion b with e | v <;> simp <;>
    (try split_ifs) <;> simp

/-- C8. The stale marker survives the removal step: on a disk whose `core.version.txt` in the
internal directory cannot be read, the version check decides to extract, calls
`os.RemoveAll("core.version.txt")`, and the entry at
`/data/files/core.version.txt` is still there afterwards. -/
theorem stale_marker_not_removed :
    (versionCheck sampleEnv browserForwarder false true ⟨lockedFS, []⟩).1 = Check.proceed "2" ∧
      (versionCheck sampleEnv browserForwarder false true ⟨lockedFS, []⟩).2.trace =
        [Op.stat "/data/files/core.version.txt", Op.readFile "/data/files/core.version.txt",
          Op.removeAll "core.version.txt", Op.assetOpen "assets/core.version.txt",
          Op.readAll "assets/core.version.txt"] ∧
      (versionCheck sampleEnv browserForwarder false true ⟨lockedFS, []⟩).2.fs
        (dirOf sampleEnv browserForwarder ++ versionOf browserForwarder) = some Node.locked := by
  decide

/-! ## The marker -/

theorem versionOf_ne_empty (name : String) (h : isResource name) : versionOf name ≠ "" := by
  rcases h with h | h | h <;> subst h <;> decide

theorem extractAssetName_fs (env : Env) (name : String) (force official : Bool) (w : World)
    (q : String) (h1 : q ≠ versionOf name) (h2 : q ≠ dirOf env name ++ name)
    (h3 : q ≠ dirOf env name ++ versionOf name) :
    (extractAssetName env name force official w).2.fs q = w.fs q := by
  have hv : (versionCheck env name force official w).2.fs q = w.fs q := by
    rw [versionCheck_fs]
    split_ifs <;> simp [h1]
  unfold extractAssetName
  rcases hvc : versionCheck env name force official w with ⟨e | av, w1⟩
  · rw [hvc] at hv
    exact hv
  · rw [hvc] at hv
    simp only [copyAndStamp]
    have hc := copyAndUnxz_fs env name w1 q h2
    rcases hcu : copyAndUnxz env name w1 with ⟨_ | e, w2⟩
    · rw [hcu] at hc
      simp only at hc ⊢
      rw [writeMarker_fs env _ av w2 q h3, hc, hv]
    · rw [hcu] at hc
      simp only at hc ⊢
      rw [hc, hv]

theorem extractAssetName_trace (env : Env) (name : String) (force official : Bool) (w : World) :
    ∃ l, (extractAssetName env name force official w).2.trace = w.trace ++ l := by
  obtain ⟨l, hl, _⟩ := versionCheck_trace env name force official w
  unfold extractAssetName
  rcases hvc : versionCheck env name force official w with ⟨e | av, w1⟩
  · rw [hvc] at hl
    exact ⟨l, hl⟩
  · rw [hvc] at hl
    simp only at hl
    obtain ⟨l1, h1, _⟩ := copyAndStamp_trace env name av w1
    exact ⟨l ++ _ :: l1, by rw [h1, hl, List.append_assoc]⟩

theorem extractLogged_fs (env : Env) (u : Bool) (name : String) (w : World) :
    (extractLogged env u name w).fs = (extractAssetName env name false u w).2.fs := by
  unfold extractLogged
  rcases extractAssetName env name false u w with ⟨_ | e, w1⟩ <;> rfl

theorem extractLogged_trace (env : Env) (u : Bool) (name : String) (w : World) :
    ∃ l, (extractLogged env u name w).trace = w.trace ++ l ∧
      ((extractAssetName env name false u w).1 ≠ none → ∃ e, Op.warnf geoipDat e ∈ l) := by
  obtain ⟨l, hl⟩ := extractAssetName_trace env name false u w
  unfold extractLogged
  rcases h : extractAssetName env name false u w with ⟨_ | e, w1⟩
  · rw [h] at hl
    exact ⟨l, hl, fun hc => absurd rfl hc⟩
  · rw [h] at hl
    refine ⟨l ++ [Op.warnf geoipDat e], ?_, fun _ => ⟨e, by simp⟩⟩
    simp only [World.log, List.append_assoc]
    simp only at hl
    rw [hl, List.append_assoc]

/-! ## A second call after a successful one -/

theorem versionCheck_ret_none_fs (env : Env) (name : String) (force official : Bool) (w : World)
    (h : (versionCheck env name force official w).1 = Check.ret none) :
    (versionCheck env name force official w).2.fs = w.fs := by
  rw [versionCheck_fs]
  rw [versionCheck_fst] at h
  split_ifs with hc
  · exfalso
    revert h
    rcases hc.1 with hk | hk <;>
      simp only [policy, hk, hc.2.1, if_true, loadCheck] <;>
      cases readVersion (env.bundle (env.assetsPrefix ++ versionOf name)) <;> simp
  · rfl

theorem policy_stamped (a : Option Node) (b : Except Err Stream) (repl official : Bool)
    (av : String) (hb : readVersion b = Except.ok av) :
    policy (some (Node.file av)) a b repl official false = Check.ret none := by
  simp [policy, hb, compareVersions_self]

/-- After a call that returned nil, a call without `force` on any disk that agrees on the
marker and on the target returns nil before the copy step. -/
theorem second_call_skips (env env2 : Env) (name : String) (official : Bool) (w v : World)
    (hp : env2.assetsPrefix = env.assetsPrefix)
    (hi : env2.internalAssetsPath = env.internalAssetsPath)
    (hx : env2.externalAssetsPath = env.externalAssetsPath)
    (hb : env2.bundle = env.bundle)
    (h1 : (extractAssetName env name false official w).1 = none)
    (hm : v.fs (dirOf env name ++ versionOf name) =
      (extractAssetName env name false official w).2.fs (dirOf env name ++ versionOf name))
    (ht : v.fs (dirOf env name ++ name) =
      (extractAssetName env name false official w).2.fs (dirOf env name ++ name)) :
    (versionCheck env2 name false official v).1 = Check.ret none := by
  have hd : dirOf env2 name = dirOf env name := by simp [dirOf, hi, hx]
  have hfst := versionCheck_fst env name false official w
  rw [versionCheck_fst, hd, hp, hb, hm, ht]
  unfold extractAssetName at h1 ⊢
  rcases hvc : versionCheck env name false official w with ⟨e | av, w1⟩
  · rw [hvc] at h1 hfst
    simp only at h1 hfst
    subst h1
    have := versionCheck_ret_none_fs env name false official w (by rw [hvc])
    rw [hvc] at this
    simp only at this ⊢
    rw [this, ← hfst]
  · rw [hvc] at h1 hfst
    simp only at h1 hfst ⊢
    have hrv := policy_proceed _ _ _ _ _ _ _ hfst.symm
    simp only [copyAndStamp] at h1 ⊢
    rcases hcu : copyAndUnxz env name w1 with ⟨_ | e, w2⟩
    · rw [hcu] at h1
      simp only at h1 ⊢
      rw [writeMarker_ok env _ av w2 h1]
      exact policy_stamped _ _ _ _ _ hrv
    · rw [hcu] at h1
      simp at h1

theorem skip_call (env : Env) (name : String) (official : Bool) (v : World)
    (h : (versionCheck env name false official v).1 = Check.ret none) :
    (extractLogged env official name v).fs = v.fs ∧
      ∃ l, (extractLogged env official name v).trace = v.trace ++ l ∧ l.all isCheckOp = true := by
  have hfs := versionCheck_ret_none_fs env name false official v h
  obtain ⟨l, hl, hall⟩ := versionCheck_trace env name false official v
  unfold extractLogged extractAssetName
  rcases hvc : versionCheck env name false official v with ⟨c, w1⟩
  rw [hvc] at h hfs hl
  simp only at h hfs hl
  subst h
  exact ⟨hfs, l, hl, hall⟩

/-! ## Paths of different resources -/

theorem resource_suffixes (name name2 : String) (h : isResource name) (h2 : isResource name2)
    (hne : name ≠ name2) :
    ∀ x ∈ [name, versionOf name], ∀ y ∈ [name2, versionOf name2],
      ¬ x.data <:+ y.data ∧ ¬ y.data <:+ x.data := by
  rcases h with h | h | h <;> rcases h2 with h2 | h2 | h2 <;> subst h <;> subst h2 <;>
    first
    | exact absurd rfl hne
    | decide

/-- A call for one resource leaves the marker and the target of another resource alone. -/
theorem other_resource_untouched (env : Env) (name name2 : String) (force official : Bool)
    (w : World) (h : isResource name) (h2 : isResource name2) (hne : name ≠ name2) :
    (extractAssetName env name2 force official w).2.fs (dirOf env name ++ versionOf name) =
        w.fs (dirOf env name ++ versionOf name) ∧
      (extractAssetName env name2 force official w).2.fs (dirOf env name ++ name) =
        w.fs (dirOf env name ++ name) := by
  have hs := resource_suffixes name name2 h h2 hne
  have hv := hs (versionOf name) (by simp)
  have hn := hs name (by simp)
  have hvv := hv (versionOf name2) (by simp)
  have hvn := hv name2 (by simp)
  have hnv := hn (versionOf name2) (by simp)
  have hnn := hn name2 (by simp)
  constructor
  · apply extractAssetName_fs
    · exact (str_ne_append_of_not_suffix _ _ _ hvv.1).symm
    · exact str_append_ne_of_not_suffix _ _ _ _ hvn.1 hvn.2
    · exact str_append_ne_of_not_suffix _ _ _ _ hvv.1 hvv.2
  · apply extractAssetName_fs
    · exact (str_ne_append_of_not_suffix _ _ _ hnv.1).symm
    · exact str_append_ne_of_not_suffix _ _ _ _ hnn.1 hnn.2
    · exact str_append_ne_of_not_suffix _ _ _ _ hnv.1 hnv.2



/-! ## Two runs of the provisioner -/

/-- C5. Provisioning is idempotent: if a first run of `extractV2RayAssets` logs no
warning, a second run on the resulting disk, with the same bundle, directories and channel
setting (and any failure behaviour of its own), makes only the calls of the version check
(no copy, no create, no write, no warning) and leaves the whole disk as it is. -/
theorem provisioning_idempotent (env env2 : Env) (official : Bool) (fs : FS)
    (hp : env2.assetsPrefix = env.assetsPrefix)
    (hi : env2.internalAssetsPath = env.internalAssetsPath)
    (hx : env2.externalAssetsPath = env.externalAssetsPath)
    (hb : env2.bundle = env.bundle)
    (hn : env2.isNekoray = env.isNekoray)
    (hok : (extractV2RayAssets env official ⟨fs, []⟩).trace.all (fun o => !isWarnf o) = true) :
    (extractV2RayAssets env2 official ⟨(extractV2RayAssets env official ⟨fs, []⟩).fs, []⟩).fs =
        (extractV2RayAssets env official ⟨fs, []⟩).fs ∧
      (extractV2RayAssets env2 official
        ⟨(extractV2RayAssets env official ⟨fs, []⟩).fs, []⟩).trace.all isCheckOp = true := by
  unfold extractV2RayAssets at hok ⊢
  rw [hn]
  cases hnk : env.isNekoray
  case true => simp
  simp only [hnk, Bool.false_eq_true, if_false] at hok ⊢
  have r1 : isResource geoipDat := Or.inl rfl
  have r2 : isResource geositeDat := Or.inr (Or.inl rfl)
  have r3 : isResource browserForwarder := Or.inr (Or.inr rfl)
  have n12 : geoipDat ≠ geositeDat := by decide
  have n13 : geoipDat ≠ browserForwarder := by decide
  have n23 : geositeDat ≠ browserForwarder := by decide
  -- the first run
  generalize hs0 : (⟨fs, []⟩ : World) = s0 at hok ⊢
  obtain ⟨l1, ht1, hw1⟩ := extractLogged_trace env official geoipDat s0
  have hf1 := extractLogged_fs env official geoipDat s0
  generalize hs1 : extractLogged env official geoipDat s0 = s1 at hok ht1 hf1 ⊢
  obtain ⟨l2, ht2, hw2⟩ := extractLogged_trace env official geositeDat s1
  have hf2 := extractLogged_fs env official geositeDat s1
  generalize hs2 : extractLogged env official geositeDat s1 = s2 at hok ht2 hf2 ⊢
  obtain ⟨l3, ht3, hw3⟩ := extractLogged_trace env official browserForwarder s2
  have hf3 := extractLogged_fs env official browserForwarder s2
  generalize hs3 : extractLogged env official browserForwarder s2 = s3 at hok ht3 hf3 ⊢
  have hnow : ∀ e, Op.warnf geoipDat e ∉ s3.trace := by
    intro e he
    have := List.all_eq_true.1 hok _ he
    simp [isWarnf] at this
  have e1 : (extractAssetName env geoipDat false official s0).1 = none := by
    by_contra hc
    obtain ⟨e, he⟩ := hw1 hc
    exact hnow e (by rw [ht3, ht2, ht1]; simp [he])
  have e2 : (extractAssetName env geositeDat false official s1).1 = none := by
    by_contra hc
    obtain ⟨e, he⟩ := hw2 hc
    exact hnow e (by rw [ht3, ht2]; simp [he])
  have e3 : (extractAssetName env browserForwarder false official s2).1 = none := by
    by_contra hc
    obtain ⟨e, he⟩ := hw3 hc
    exact hnow e (by rw [ht3]; simp [he])
  -- what the later calls leave alone
  have a12 := other_resource_untouched env geoipDat geositeDat false official s1 r1 r2 n12
  have a13 := other_resource_untouched env geoipDat browserForwarder false official s2 r1 r3 n13
  have a23 := other_resource_untouched env geositeDat browserForwarder false official s2 r2 r3 n23
  rw [← hf2] at a12
  rw [← hf3] at a13 a23
  -- the second run
  generalize hv0 : (⟨s3.fs, []⟩ : World) = v0
  have hv0fs : v0.fs = s3.fs := by rw [← hv0]
  have hv0tr : v0.trace = [] := by rw [← hv0]
  have c1 := second_call_skips env env2 geoipDat official s0 v0 hp hi hx hb e1
    (by rw [hv0fs, a13.1, a12.1, hf1]) (by rw [hv0fs, a13.2, a12.2, hf1])
  obtain ⟨g1, k1, hk1, hall1⟩ := skip_call env2 geoipDat official v0 c1
  generalize hv1 : extractLogged env2 official geoipDat v0 = v1 at g1 hk1 ⊢
  have c2 := second_call_skips env env2 geositeDat official s1 v1 hp hi hx hb e2
    (by rw [g1, hv0fs, a23.1, hf2]) (by rw [g1, hv0fs, a23.2, hf2])
  obtain ⟨g2, k2, hk2, hall2⟩ := skip_call env2 geositeDat official v1 c2
  generalize hv2 : extractLogged env2 official geositeDat v1 = v2 at g2 hk2 ⊢
  have c3 := second_call_skips env env2 browserForwarder official s2 v2 hp hi hx hb e3
    (by rw [g2, g1, hv0fs, hf3]) (by rw [g2, g1, hv0fs, hf3])
  obtain ⟨g3, k3, hk3, hall3⟩ := skip_call env2 browserForwarder official v2 c3
  refine ⟨by rw [g3, g2, g1, hv0fs], ?_⟩
  rw [hk3, hk2, hk1, hv0tr]
  simp only [List.nil_append, List.all_append, hall1, hall2, hall3, Bool.and_self]



/-! ## Worked instances and the retry after a failed copy -/

theorem browserForwarder_ignores_channel_witness :
    extractAssetName sampleEnv browserForwarder false false ⟨lockedFS, []⟩ =
        extractAssetName sampleEnv browserForwarder false true ⟨lockedFS, []⟩ ∧
      dirOf sampleEnv browserForwarder = sampleEnv.internalAssetsPath ∧
      (Op.create "/data/files/index.js" ∈
          (extractAssetName sampleEnv browserForwarder false false ⟨lockedFS, []⟩).2.trace →
        "/data/files/index.js" = sampleEnv.internalAssetsPath ++ browserForwarder ∨
          "/data/files/index.js" = sampleEnv.internalAssetsPath ++ coreVersion) :=
  ⟨(browserForwarder_ignores_channel sampleEnv false lockedFS).1,
    (browserForwarder_ignores_channel sampleEnv false lockedFS).2.1,
    (browserForwarder_ignores_channel sampleEnv false lockedFS).2.2 false "/data/files/index.js"⟩

theorem provisioning_idempotent_witness :
    (extractV2RayAssets sampleEnv true ⟨emptyFS, []⟩).trace.all (fun o => !isWarnf o) = true ∧
      (extractV2RayAssets copyFailEnv true
          ⟨(extractV2RayAssets sampleEnv true ⟨emptyFS, []⟩).fs, []⟩).fs =
        (extractV2RayAssets sampleEnv true ⟨emptyFS, []⟩).fs ∧
      (extractV2RayAssets copyFailEnv true
        ⟨(extractV2RayAssets sampleEnv true ⟨emptyFS, []⟩).fs, []⟩).trace.all isCheckOp = true :=
  ⟨by decide,
    provisioning_idempotent sampleEnv copyFailEnv true emptyFS rfl rfl rfl rfl rfl (by decide)⟩

/-! ## `parseUint` reads unsigned 64-bit decimals -/

theorem decimalValue_ge (cs : List Char) (n : Nat) : n ≤ decimalValue cs n := by
  induction cs generalizing n with
  | nil => exact Nat.le_refl n
  | cons c cs ih =>
    have := ih (n * 10 + (c.toNat - 48))
    simp only [decimalValue, List.foldl_cons] at this ⊢
    omega

theorem parseUintLoop_iff (cs : List Char) (n v : Nat) (hn : n < 2 ^ 64) :
    parseUintLoop cs n = some v ↔
      (∀ c ∈ cs, 48 ≤ c.toNat ∧ c.toNat ≤ 57) ∧ decimalValue cs n = v ∧ v < 2 ^ 64 := by
  induction cs generalizing n with
  | nil =>
    simp only [parseUintLoop, Option.some.injEq, List.not_mem_nil, false_implies, implies_true,
      decimalValue, List.foldl_nil, true_and]
    constructor
    · intro h
      subst h
      exact ⟨rfl, hn⟩
    · intro h
      exact h.1
  | cons c cs ih =>
    have hge := decimalValue_ge cs (n * 10 + (c.toNat - 48))
    have hstep : decimalValue (c :: cs) n = decimalValue cs (n * 10 + (c.toNat - 48)) := rfl
    unfold parseUintLoop
    have h64 : (2 : Nat) ^ 64 = 18446744073709551616 := by norm_num
    have hmax : maxUint64 = 18446744073709551615 := by norm_num [maxUint64]
    have hcut : cutoff10 = 1844674407370955162 := by norm_num [cutoff10, maxUint64]
    by_cases hd : 48 ≤ c.toNat ∧ c.toNat ≤ 57
    · simp only [hd, and_self, if_true, List.mem_cons, forall_eq_or_imp, true_and, hstep]
      rw [hmax, hcut, h64] at *
      by_cases hc : n ≥ 1844674407370955162
      · simp only [hc, if_true, reduceCtorEq, false_iff, not_and, not_lt]
        intro _ hv
        omega
      · simp only [hc, if_false]
        have hm : n * 10 % 18446744073709551616 = n * 10 := Nat.mod_eq_of_lt (by omega)
        rw [hm]
        by_cases ho : n * 10 + (c.toNat - 48) < 18446744073709551616
        · have h1 : (n * 10 + (c.toNat - 48)) % 18446744073709551616 =
              n * 10 + (c.toNat - 48) := Nat.mod_eq_of_lt ho
          rw [h1]
          have hno : ¬ (n * 10 + (c.toNat - 48) < n * 10 ∨
              n * 10 + (c.toNat - 48) > 18446744073709551615) := by omega
          simp only [hno, if_false]
          exact ih (n * 10 + (c.toNat - 48)) ho
        · have hlt : (n * 10 + (c.toNat - 48)) % 18446744073709551616 < n * 10 := by omega
          simp only [hlt, true_or, if_true, reduceCtorEq, false_iff, not_and, not_lt]
          intro _ hv
          omega
    · simp only [hd, if_false, reduceCtorEq, List.mem_cons, forall_eq_or_imp, false_and]

/-- The embedding of `strconv.ParseUint(s, 10, 64)` succeeds exactly on the non-empty
strings of decimal digits whose value fits 64 bits, and returns that value. -/
theorem parseUint_eq_some_iff (s : String) (v : Nat) :
    parseUint s = some v ↔
      s ≠ "" ∧ (∀ c ∈ s.data, 48 ≤ c.toNat ∧ c.toNat ≤ 57) ∧ decimalValue s.data 0 = v ∧
        v < 2 ^ 64 := by
  unfold parseUint
  by_cases hs : s = ""
  · simp [hs]
  · simp only [hs, if_false, ne_eq, not_false_eq_true, true_and]
    exact parseUintLoop_iff s.data 0 v (by norm_num)


/-! ## The stale marker in general -/

/-- Whenever the marker path differs from the bare version file name (that is, whenever
the directory is not empty), an unreadable marker is still there after the version check:
`os.RemoveAll` is given `version`, not `dir + version`. -/
theorem locked_marker_survives (env : Env) (name : String) (force official : Bool) (w : World)
    (hl : w.fs (dirOf env name ++ versionOf name) = some Node.locked)
    (hne : dirOf env name ++ versionOf name ≠ versionOf name) :
    (versionCheck env name force official w).2.fs (dirOf env name ++ versionOf name) =
      some Node.locked := by
  rw [versionCheck_fs]
  split_ifs <;> simp [hl, hne]


/-! ## The marker write and the call after a failed copy -/

end Libcore
